import Mathlib

/-!
Verification of the loss-function module `lib/model/losses_tf.py` of the
faceswap repository.

Image tensors are modelled as rank-4 arrays of real numbers in the layout
(batch, height, width, channels), represented by explicit dimensions plus a
total indexing function; entries outside the stated dimensions are junk and
all statements only constrain in-range indices (or hold for every index when
the underlying computation is pointwise).  TensorFlow / Keras primitives used
by the source (slicing, concatenation, reductions, depthwise convolution,
`tf.image.ssim`, `tf.image.ssim_multiscale`) are given direct mathematical
models below, each next to the definition that uses it.  Floating-point
arithmetic is idealised as real arithmetic; Mathlib's total-division
convention (x / 0 = 0) stands in for IEEE non-finite results, which matters
only where a claim is explicitly about division by zero and is flagged there.
-/

/-- Rank-4 tensor, layout (batch, height, width, channels). -/
structure Tensor4 where
  b : ℕ
  h : ℕ
  w : ℕ
  c : ℕ
  data : ℕ → ℕ → ℕ → ℕ → ℝ

/-- Rank-3 tensor, as produced by reductions that drop the channel axis. -/
structure Tensor3 where
  b : ℕ
  h : ℕ
  w : ℕ
  data : ℕ → ℕ → ℕ → ℝ

/-- Rank-1 tensor: one value per batch sample. -/
structure Tensor1 where
  b : ℕ
  data : ℕ → ℝ

/-- Constant rank-4 tensor. -/
def constT (b h w c : ℕ) (v : ℝ) : Tensor4 :=
  ⟨b, h, w, c, fun _ _ _ _ => v⟩

/-- Pointwise binary operation.  The source only combines tensors of equal
shape (TensorFlow would raise on a mismatch), so the result carries the
dimensions of the first operand. -/
def Tensor4.zipWith (f : ℝ → ℝ → ℝ) (x y : Tensor4) : Tensor4 :=
  ⟨x.b, x.h, x.w, x.c, fun i j k l => f (x.data i j k l) (y.data i j k l)⟩

/-- Pointwise unary operation. -/
def Tensor4.map (f : ℝ → ℝ) (x : Tensor4) : Tensor4 :=
  ⟨x.b, x.h, x.w, x.c, fun i j k l => f (x.data i j k l)⟩

def Tensor4.sub (x y : Tensor4) : Tensor4 := Tensor4.zipWith (fun a b => a - b) x y

def Tensor4.addT (x y : Tensor4) : Tensor4 := Tensor4.zipWith (fun a b => a + b) x y

def Tensor4.mulT (x y : Tensor4) : Tensor4 := Tensor4.zipWith (fun a b => a * b) x y

/-- Multiplication of a tensor by a scalar on the right (`x * 0.5`). -/
def Tensor4.smul (x : Tensor4) (s : ℝ) : Tensor4 := Tensor4.map (fun a => a * s) x

/-- Python slice normalisation for step 1: given the axis length `n`, a start
index and an optional stop index (negative values count from the end, a
missing stop means the axis length), return the offset of the first selected
index and the number of selected indices. -/
def sliceIdx (n : ℕ) (start : ℤ) (stop : Option ℤ) : ℕ × ℕ :=
  let s : ℕ := if start < 0 then (start + n).toNat else min start.toNat n
  let e : ℕ := match stop with
    | none => n
    | some t => if t < 0 then (t + n).toNat else min t.toNat n
  (s, e - s)

/-- Slice along the height axis, `img[:, start:stop, :, :]`. -/
def Tensor4.sliceH (t : Tensor4) (start : ℤ) (stop : Option ℤ) : Tensor4 :=
  let p := sliceIdx t.h start stop
  ⟨t.b, p.2, t.w, t.c, fun i j k l => t.data i (j + p.1) k l⟩

/-- Slice along the width axis, `img[:, :, start:stop, :]`. -/
def Tensor4.sliceW (t : Tensor4) (start : ℤ) (stop : Option ℤ) : Tensor4 :=
  let p := sliceIdx t.w start stop
  ⟨t.b, t.h, p.2, t.c, fun i j k l => t.data i j (k + p.1) l⟩

/-- Slice along the channel axis, `img[..., start:stop]`. -/
def Tensor4.sliceC (t : Tensor4) (start : ℤ) (stop : Option ℤ) : Tensor4 :=
  let p := sliceIdx t.c start stop
  ⟨t.b, t.h, t.w, p.2, fun i j k l => t.data i j k (l + p.1)⟩

/-- Concatenation of two tensors along the height axis (`K.concatenate`,
`axis=1`); a three-argument concatenation is the contiguous layout
`concatH (concatH a b) c`. -/
def Tensor4.concatH (x y : Tensor4) : Tensor4 :=
  ⟨x.b, x.h + y.h, x.w, x.c,
    fun i j k l => if j < x.h then x.data i j k l else y.data i (j - x.h) k l⟩

/-- Concatenation of two tensors along the width axis (`K.concatenate`, `axis=2`). -/
def Tensor4.concatW (x y : Tensor4) : Tensor4 :=
  ⟨x.b, x.h, x.w + y.w, x.c,
    fun i j k l => if k < x.w then x.data i j k l else y.data i j (k - x.w) l⟩

/-- Concatenation of two tensors along the channel axis (`K.concatenate`, `axis=-1`). -/
def Tensor4.concatC (x y : Tensor4) : Tensor4 :=
  ⟨x.b, x.h, x.w, x.c + y.c,
    fun i j k l => if l < x.c then x.data i j k l else y.data i j k (l - x.c)⟩

def Tensor4.concat3H (x y z : Tensor4) : Tensor4 := Tensor4.concatH (Tensor4.concatH x y) z

def Tensor4.concat3W (x y z : Tensor4) : Tensor4 := Tensor4.concatW (Tensor4.concatW x y) z

def Tensor4.concat3C (x y z : Tensor4) : Tensor4 := Tensor4.concatC (Tensor4.concatC x y) z

/-- `K.mean(t, axis=-1)`: mean over the channel axis, dropping it. -/
noncomputable def Tensor4.meanLast (t : Tensor4) : Tensor3 :=
  ⟨t.b, t.h, t.w, fun i j k => (∑ l ∈ Finset.range t.c, t.data i j k l) / t.c⟩

/-- Maximum of `f 0, …, f (n-1)` (the value for `n = 0` is the junk `f 0`,
matching the convention that out-of-range data is unconstrained). -/
noncomputable def natMax : ℕ → (ℕ → ℝ) → ℝ
  | 0, f => f 0
  | n + 1, f => max (natMax n f) (f n)

/-- `K.max(t, axis=(1, 2), keepdims=True)`: maximum over the two spatial axes. -/
noncomputable def Tensor4.maxSpatialKeep (t : Tensor4) : Tensor4 :=
  ⟨t.b, 1, 1, t.c, fun i _ _ l => natMax t.h (fun j => natMax t.w (fun k => t.data i j k l))⟩

/-- Mean of all in-range entries of a rank-3 tensor. -/
noncomputable def Tensor3.meanAll (t : Tensor3) : ℝ :=
  (∑ i ∈ Finset.range t.b, ∑ j ∈ Finset.range t.h, ∑ k ∈ Finset.range t.w, t.data i j k)
    / (t.b * t.h * t.w)

/-- Mean over the height, width and channel axes of a rank-4 tensor (one value
per sample), as used by `K.std(…, axis=(1, 2, 3))`. -/
noncomputable def Tensor4.meanHWC (t : Tensor4) (i : ℕ) : ℝ :=
  (∑ j ∈ Finset.range t.h, ∑ k ∈ Finset.range t.w, ∑ l ∈ Finset.range t.c, t.data i j k l)
    / (t.h * t.w * t.c)

/-- `K.std(t, axis=(1, 2, 3), keepdims=True)`: per-sample standard deviation,
the square root of the mean squared deviation from the per-sample mean. -/
noncomputable def Tensor4.stdHWCKeep (t : Tensor4) : Tensor4 :=
  ⟨t.b, 1, 1, 1, fun i _ _ _ =>
    Real.sqrt ((∑ j ∈ Finset.range t.h, ∑ k ∈ Finset.range t.w, ∑ l ∈ Finset.range t.c,
        (t.data i j k l - Tensor4.meanHWC t i) ^ 2) / (t.h * t.w * t.c))⟩

/-- `K.squeeze(t, axis=-1)` for a tensor whose channel axis has size 1. -/
def Tensor4.squeezeLast (t : Tensor4) : Tensor3 :=
  ⟨t.b, t.h, t.w, fun i j k => t.data i j k 0⟩

/-- `GeneralizedLoss` instance state: the two parameters stored by
`GeneralizedLoss.__init__` (source defaults `alpha=1.0`, `beta=1.0/255.0`);
the constructor performs no validation. -/
structure GeneralizedLoss where
  alpha : ℝ
  beta : ℝ

/-- `GeneralizedLoss.call` (losses_tf.py lines 196-216):
`diff = y_pred - y_true`;
`second = K.pow(K.pow(diff/beta, 2.) / K.abs(2. - alpha) + 1., alpha/2.) - 1.`;
`loss = (K.abs(2. - alpha)/alpha) * second`;
`loss = K.mean(loss, axis=-1) * beta`.
`K.pow(x, 2.0)` is squaring; the outer `K.pow` with real exponent is
`Real.rpow`. -/
noncomputable def GeneralizedLoss.call (self : GeneralizedLoss) (y_true y_pred : Tensor4) :
    Tensor3 :=
  let diff := Tensor4.sub y_pred y_true
  let second := Tensor4.map
    (fun v => Real.rpow ((v / self.beta) ^ 2 / |2 - self.alpha| + 1) (self.alpha / 2) - 1) diff
  let loss := Tensor4.map (fun v => (|2 - self.alpha| / self.alpha) * v) second
  let reduced := Tensor4.meanLast loss
  ⟨reduced.b, reduced.h, reduced.w, fun i j k => reduced.data i j k * self.beta⟩

/-- Model of the Keras `Loss.__call__` wrapper around `GeneralizedLoss.call`:
the instance is built with the default reduction `SUM_OVER_BATCH_SIZE`, which
reduces the `call` output to the mean of all its entries. -/
noncomputable def GeneralizedLoss.kerasCall (self : GeneralizedLoss) (y_true y_pred : Tensor4) :
    ℝ :=
  Tensor3.meanAll (GeneralizedLoss.call self y_true y_pred)

/-- `LInfNorm.call` (losses_tf.py lines 224-243):
`diff = K.abs(y_true - y_pred)`;
`max_loss = K.max(diff, axis=(1, 2), keepdims=True)`;
`loss = K.mean(max_loss, axis=-1)`. -/
noncomputable def LInfNorm.call (y_true y_pred : Tensor4) : Tensor3 :=
  let diff := Tensor4.map abs (Tensor4.sub y_true y_pred)
  let max_loss := Tensor4.maxSpatialKeep diff
  Tensor4.meanLast max_loss

/-- `GradientLoss._diff_x` (losses_tf.py lines 291-298). -/
def GradientLoss.diff_x (img : Tensor4) : Tensor4 :=
  let x_left := Tensor4.sub (img.sliceW 1 (some 2)) (img.sliceW 0 (some 1))
  let x_inner := Tensor4.sub (img.sliceW 2 none) (img.sliceW 0 (some (-2)))
  let x_right := Tensor4.sub (img.sliceW (-1) none) (img.sliceW (-2) (some (-1)))
  let x_out := Tensor4.concat3W x_left x_inner x_right
  Tensor4.smul x_out 0.5

/-- `GradientLoss._diff_y` (losses_tf.py lines 300-307). -/
def GradientLoss.diff_y (img : Tensor4) : Tensor4 :=
  let y_top := Tensor4.sub (img.sliceH 1 (some 2)) (img.sliceH 0 (some 1))
  let y_inner := Tensor4.sub (img.sliceH 2 none) (img.sliceH 0 (some (-2)))
  let y_bot := Tensor4.sub (img.sliceH (-1) none) (img.sliceH (-2) (some (-1)))
  let y_out := Tensor4.concat3H y_top y_inner y_bot
  Tensor4.smul y_out 0.5

/-- `GradientLoss._diff_xx` (losses_tf.py lines 309-316). -/
def GradientLoss.diff_xx (img : Tensor4) : Tensor4 :=
  let x_left := Tensor4.addT (img.sliceW 1 (some 2)) (img.sliceW 0 (some 1))
  let x_inner := Tensor4.addT (img.sliceW 2 none) (img.sliceW 0 (some (-2)))
  let x_right := Tensor4.addT (img.sliceW (-1) none) (img.sliceW (-2) (some (-1)))
  let x_out := Tensor4.concat3W x_left x_inner x_right
  Tensor4.sub x_out (img.smul 2.0)

/-- `GradientLoss._diff_yy` (losses_tf.py lines 318-325). -/
def GradientLoss.diff_yy (img : Tensor4) : Tensor4 :=
  let y_top := Tensor4.addT (img.sliceH 1 (some 2)) (img.sliceH 0 (some 1))
  let y_inner := Tensor4.addT (img.sliceH 2 none) (img.sliceH 0 (some (-2)))
  let y_bot := Tensor4.addT (img.sliceH (-1) none) (img.sliceH (-2) (some (-1)))
  let y_out := Tensor4.concat3H y_top y_inner y_bot
  Tensor4.sub y_out (img.smul 2.0)

/-- Two-axis slice `img[:, hs:he, ws:we, :]`, used by `_diff_xy`. -/
def Tensor4.sliceHW (t : Tensor4) (hstart : ℤ) (hstop : Option ℤ)
    (wstart : ℤ) (wstop : Option ℤ) : Tensor4 :=
  (t.sliceH hstart hstop).sliceW wstart wstop

/-- `GradientLoss._diff_xy` (losses_tf.py lines 327-364), including the slip in
the source: the second block of assignments (comment `Xout2`) rebinds
`xy_left`, `xy_mid` and `xy_right`, so `xy_out1` and `xy_out2` are both built
from the rebound values. -/
def GradientLoss.diff_xy (img : Tensor4) : Tensor4 :=
  -- xout1
  let top_left := Tensor4.addT (img.sliceHW 1 (some 2) 1 (some 2)) (img.sliceHW 0 (some 1) 0 (some 1))
  let inner_left := Tensor4.addT (img.sliceHW 2 none 1 (some 2)) (img.sliceHW 0 (some (-2)) 0 (some 1))
  let bot_left := Tensor4.addT (img.sliceHW (-1) none 1 (some 2)) (img.sliceHW (-2) (some (-1)) 0 (some 1))
  let xy_left := Tensor4.concat3H top_left inner_left bot_left
  let top_mid := Tensor4.addT (img.sliceHW 1 (some 2) 2 none) (img.sliceHW 0 (some 1) 0 (some (-2)))
  let mid_mid := Tensor4.addT (img.sliceHW 2 none 2 none) (img.sliceHW 0 (some (-2)) 0 (some (-2)))
  let bot_mid := Tensor4.addT (img.sliceHW (-1) none 2 none) (img.sliceHW (-2) (some (-1)) 0 (some (-2)))
  let xy_mid := Tensor4.concat3H top_mid mid_mid bot_mid
  let top_right := Tensor4.addT (img.sliceHW 1 (some 2) (-1) none) (img.sliceHW 0 (some 1) (-2) (some (-1)))
  let inner_right := Tensor4.addT (img.sliceHW 2 none (-1) none) (img.sliceHW 0 (some (-2)) (-2) (some (-1)))
  let bot_right := Tensor4.addT (img.sliceHW (-1) none (-1) none) (img.sliceHW (-2) (some (-1)) (-2) (some (-1)))
  let xy_right := Tensor4.concat3H top_right inner_right bot_right
  -- Xout2 (rebinds the nine part variables and the three column variables)
  let top_left := Tensor4.addT (img.sliceHW 0 (some 1) 1 (some 2)) (img.sliceHW 1 (some 2) 0 (some 1))
  let inner_left := Tensor4.addT (img.sliceHW 0 (some (-2)) 1 (some 2)) (img.sliceHW 2 none 0 (some 1))
  let bot_left := Tensor4.addT (img.sliceHW (-2) (some (-1)) 1 (some 2)) (img.sliceHW (-1) none 0 (some 1))
  let xy_left := Tensor4.concat3H top_left inner_left bot_left
  let top_mid := Tensor4.addT (img.sliceHW 0 (some 1) 2 none) (img.sliceHW 1 (some 2) 0 (some (-2)))
  let mid_mid := Tensor4.addT (img.sliceHW 0 (some (-2)) 2 none) (img.sliceHW 2 none 0 (some (-2)))
  let bot_mid := Tensor4.addT (img.sliceHW (-2) (some (-1)) 2 none) (img.sliceHW (-1) none 0 (some (-2)))
  let xy_mid := Tensor4.concat3H top_mid mid_mid bot_mid
  let top_right := Tensor4.addT (img.sliceHW 0 (some 1) (-1) none) (img.sliceHW 1 (some 2) (-2) (some (-1)))
  let inner_right := Tensor4.addT (img.sliceHW 0 (some (-2)) (-1) none) (img.sliceHW 2 none (-2) (some (-1)))
  let bot_right := Tensor4.addT (img.sliceHW (-2) (some (-1)) (-1) none) (img.sliceHW (-1) none (-2) (some (-1)))
  let xy_right := Tensor4.concat3H top_right inner_right bot_right
  let xy_out1 := Tensor4.concat3W xy_left xy_mid xy_right
  let xy_out2 := Tensor4.concat3W xy_left xy_mid xy_right
  Tensor4.smul (Tensor4.sub xy_out1 xy_out2) 0.25

/-- `GradientLoss.__init__` stores `GeneralizedLoss(alpha=1.9999)` (with the
default `beta = 1.0/255.0`). -/
noncomputable def GradientLoss.generalized_loss : GeneralizedLoss :=
  ⟨1.9999, 1.0 / 255.0⟩

/-- `GradientLoss.call` (losses_tf.py lines 263-289).  Each inner
`self.generalized_loss(a, b)` is a Keras `Loss.__call__` invocation, i.e. the
reduced `GeneralizedLoss.kerasCall`. -/
noncomputable def GradientLoss.call (y_true y_pred : Tensor4) : ℝ :=
  let tv_weight : ℝ := 1.0
  let tv2_weight : ℝ := 1.0
  let loss : ℝ := 0.0
  let loss := loss + tv_weight *
    (GradientLoss.generalized_loss.kerasCall (GradientLoss.diff_x y_true) (GradientLoss.diff_x y_pred) +
     GradientLoss.generalized_loss.kerasCall (GradientLoss.diff_y y_true) (GradientLoss.diff_y y_pred))
  let loss := loss + tv2_weight *
    (GradientLoss.generalized_loss.kerasCall (GradientLoss.diff_xx y_true) (GradientLoss.diff_xx y_pred) +
     GradientLoss.generalized_loss.kerasCall (GradientLoss.diff_yy y_true) (GradientLoss.diff_yy y_pred) +
     GradientLoss.generalized_loss.kerasCall (GradientLoss.diff_xy y_true) (GradientLoss.diff_xy y_pred) * 2)
  loss / (tv_weight + tv2_weight)

/-- `MSSSIMLoss._get_smallest_size` (losses_tf.py lines 146-166): halve the
size (integer division) while the iteration index is positive. -/
def MSSSIMLoss.get_smallest_size : ℕ → ℕ → ℕ
  | size, 0 => size
  | size, idx + 1 => MSSSIMLoss.get_smallest_size (size / 2) idx

/-- The effective filter size computed by `MSSSIMLoss.call`
(losses_tf.py lines 130-133): `im_size = K.int_shape(y_true)[1]` (the height),
`smallest_scale = self._get_smallest_size(im_size, len(self.power_factors) - 1)`,
`filter_size = min(self.filter_size, smallest_scale)`. -/
def MSSSIMLoss.filter_size_used (filter_size im_size num_power_factors : ℕ) : ℕ :=
  min filter_size (MSSSIMLoss.get_smallest_size im_size (num_power_factors - 1))

/-- Python indexing along the channel axis (`y_true[..., idx]`): negative
indices count from the end. -/
def pyChannelIdx (c : ℕ) (idx : ℤ) : ℕ :=
  if idx < 0 then (idx + c).toNat else idx.toNat

/-- `K.expand_dims(y_true[..., mask_channel], axis=-1)`: extract one channel
as a rank-4 tensor with a single channel. -/
def Tensor4.channelPlane (t : Tensor4) (idx : ℤ) : Tensor4 :=
  ⟨t.b, t.h, t.w, 1, fun i j k _ => t.data i j k (pyChannelIdx t.c idx)⟩

/-- `LossWrapper._apply_mask` (losses_tf.py lines 559-598).  `mask_prop` is
the propagation factor (the source's default argument value is `1.0` and the
caller never overrides it). -/
def LossWrapper.apply_mask (y_true y_pred : Tensor4) (mask_channel : ℤ)
    (mask_prop : ℝ) : Tensor4 × Tensor4 :=
  if mask_channel = -1 then
    (y_true.sliceC 0 (some 3), y_pred.sliceC 0 (some 3))
  else
    let mask := y_true.channelPlane mask_channel
    let mask_as_k_inv_prop := 1 - mask_prop
    let mask := Tensor4.map (fun v => v * mask_prop + mask_as_k_inv_prop) mask
    let n_true := Tensor4.concat3C
      (Tensor4.mulT (y_true.sliceC 0 (some 1)) mask)
      (Tensor4.mulT (y_true.sliceC 1 (some 2)) mask)
      (Tensor4.mulT (y_true.sliceC 2 (some 3)) mask)
    let n_pred := Tensor4.concat3C
      (Tensor4.mulT (y_pred.sliceC 0 (some 1)) mask)
      (Tensor4.mulT (y_pred.sliceC 1 (some 2)) mask)
      (Tensor4.mulT (y_pred.sliceC 2 (some 3)) mask)
    (n_true, n_pred)

/-- `LossWrapper` state: the three parallel registration lists built by
`add_loss`.  Each registered loss function is stored wrapped in a Keras
`LossesContainer`, whose invocation reduces the loss to one scalar; the
wrapped callable is modelled as a function to `ℝ`. -/
structure LossWrapper where
  loss_functions : List (Tensor4 → Tensor4 → ℝ)
  loss_weights : List ℝ
  mask_channels : List ℤ

/-- `LossWrapper.__init__`: three empty lists. -/
def LossWrapper.init : LossWrapper := ⟨[], [], []⟩

/-- `LossWrapper.add_loss` (losses_tf.py lines 505-526): append to the three
parallel lists (source defaults `weight=1.0`, `mask_channel=-1`). -/
def LossWrapper.add_loss (self : LossWrapper) (function : Tensor4 → Tensor4 → ℝ)
    (weight : ℝ) (mask_channel : ℤ) : LossWrapper :=
  ⟨self.loss_functions ++ [function],
   self.loss_weights ++ [weight],
   self.mask_channels ++ [mask_channel]⟩

/-- `LossWrapper.__call__` (losses_tf.py lines 528-557): starting from
`loss = 0.0`, for each registration in order apply the mask and accumulate
`func(n_true, n_pred) * weight`. -/
def LossWrapper.call (self : LossWrapper) (y_true y_pred : Tensor4) : ℝ :=
  (self.loss_functions.zip (self.loss_weights.zip self.mask_channels)).foldl
    (fun loss fwm =>
      let masked := LossWrapper.apply_mask y_true y_pred fwm.2.2 1.0
      loss + fwm.1 masked.1 masked.2 * fwm.2.1)
    0.0

/-- The first three channels of a tensor (`y[..., :3]`), the spec's
"pre-sliced 3-channel tensor". -/
def Tensor4.firstThree (t : Tensor4) : Tensor4 := t.sliceC 0 (some 3)

/-- Closed form of the recursive halving helper. -/
theorem get_smallest_size_eq : ∀ (idx size : ℕ),
    MSSSIMLoss.get_smallest_size size idx = size / 2 ^ idx
  | 0, size => by simp [MSSSIMLoss.get_smallest_size]
  | idx + 1, size => by
    rw [MSSSIMLoss.get_smallest_size, get_smallest_size_eq idx (size / 2),
      Nat.div_div_eq_div_mul, ← pow_succ']

/-- Claim C10: evaluating the composition layer (`LossWrapper`) with zero
registered loss functions returns 0 for every input pair. -/
theorem lossWrapper_empty_returns_zero (y_true y_pred : Tensor4) :
    LossWrapper.init.call y_true y_pred = 0 := by
  simp [LossWrapper.call, LossWrapper.init]
  norm_num

/-- Claim C7: a single metric registered with `mask_channel = -1` (and the
default weight 1.0) evaluates to exactly the metric applied to the first
three channels of `y_true` and `y_pred`; extra trailing channels of `y_true`
are ignored. -/
theorem lossWrapper_no_mask_ignores_extra_channels
    (f : Tensor4 → Tensor4 → ℝ) (y_true y_pred : Tensor4) :
    (LossWrapper.init.add_loss f 1.0 (-1)).call y_true y_pred
      = f y_true.firstThree y_pred.firstThree := by
  simp [LossWrapper.call, LossWrapper.init, LossWrapper.add_loss,
    LossWrapper.apply_mask, Tensor4.firstThree]
  norm_num

/-- Claim C6: `MSSSIMLoss` computes the smallest reachable spatial size by
integer-halving the input height for (number of power factors - 1) steps and
uses the minimum of the configured filter size and that value; for height 32
and 5 power factors the smallest reachable size is 2, so any configured
filter size above 2 is clamped to 2. -/
theorem msssim_filter_size_clamp (filter_size im_size npf : ℕ) :
    MSSSIMLoss.filter_size_used filter_size im_size npf
        = min filter_size (im_size / 2 ^ (npf - 1))
      ∧ (im_size = 32 → npf = 5 → 2 < filter_size →
          MSSSIMLoss.filter_size_used filter_size im_size npf = 2) := by
  constructor
  · rw [MSSSIMLoss.filter_size_used, get_smallest_size_eq]
  · rintro rfl rfl hfs
    rw [MSSSIMLoss.filter_size_used, get_smallest_size_eq]
    norm_num
    omega

/-- Witness for C6 at a concrete configuration (filter size 11, height 32,
5 power factors). -/
theorem msssim_filter_size_clamp_witness :
    MSSSIMLoss.filter_size_used 11 32 5 = min 11 (32 / 2 ^ 4)
      ∧ (2 < 11 ∧ MSSSIMLoss.filter_size_used 11 32 5 = 2) :=
  ⟨(msssim_filter_size_clamp 11 32 5).1, by decide,
    (msssim_filter_size_clamp 11 32 5).2 rfl rfl (by decide)⟩

/-- Spec description of the first-order contribution of the gradient loss:
the generalized error (alpha = 1.9999) between the x derivative fields and
between the y derivative fields. -/
noncomputable def GradientLoss.first_order_terms (y_true y_pred : Tensor4) : ℝ :=
  GradientLoss.generalized_loss.kerasCall (GradientLoss.diff_x y_true) (GradientLoss.diff_x y_pred)
    + GradientLoss.generalized_loss.kerasCall (GradientLoss.diff_y y_true) (GradientLoss.diff_y y_pred)

/-- Spec description of the second-order contribution of the gradient loss:
xx and yy terms plus the xy cross term counted twice. -/
noncomputable def GradientLoss.second_order_terms (y_true y_pred : Tensor4) : ℝ :=
  GradientLoss.generalized_loss.kerasCall (GradientLoss.diff_xx y_true) (GradientLoss.diff_xx y_pred)
    + GradientLoss.generalized_loss.kerasCall (GradientLoss.diff_yy y_true) (GradientLoss.diff_yy y_pred)
    + 2 * GradientLoss.generalized_loss.kerasCall (GradientLoss.diff_xy y_true) (GradientLoss.diff_xy y_pred)

/-- Claim C9: `GradientLoss.call` is the weighted average with
`tv_weight = 1.0` on the first-order terms and `tv2_weight = 1.0` on the
second-order terms (xy counted twice), divided by the weight total. -/
theorem gradientLoss_weighted_average (y_true y_pred : Tensor4) :
    GradientLoss.call y_true y_pred
      = (1.0 * GradientLoss.first_order_terms y_true y_pred
          + 1.0 * GradientLoss.second_order_terms y_true y_pred) / (1.0 + 1.0) := by
  rw [GradientLoss.call, GradientLoss.first_order_terms, GradientLoss.second_order_terms]
  ring

/-- Claim C4 counterexample: constructing the generalized loss with the
disallowed `alpha = 2` succeeds (the parameter is stored unvalidated), and the
first call returns a tensor of the input's (batch, height, width) shape
instead of failing: no configuration error exists in the code.  (Under IEEE
arithmetic the tensor entries are non-finite; no exception is raised.) -/
theorem generalizedLoss_alpha_two_returns_value :
    (GeneralizedLoss.mk 2 (1.0 / 255.0)).alpha = 2
      ∧ (GeneralizedLoss.call ⟨2, 1.0 / 255.0⟩ (constT 1 1 1 1 0) (constT 1 1 1 1 0)).b = 1
      ∧ (GeneralizedLoss.call ⟨2, 1.0 / 255.0⟩ (constT 1 1 1 1 0) (constT 1 1 1 1 0)).h = 1
      ∧ (GeneralizedLoss.call ⟨2, 1.0 / 255.0⟩ (constT 1 1 1 1 0) (constT 1 1 1 1 0)).w = 1 := by
  refine ⟨rfl, ?_, ?_, ?_⟩ <;>
    simp [GeneralizedLoss.call, Tensor4.meanLast, Tensor4.map, Tensor4.sub,
      Tensor4.zipWith, constT]

/-- Claim C4 amended: neither the constructor nor `call` validates `alpha`;
for every `alpha` (including exactly 0 and 2) the parameters are stored
unchanged and `call` returns a rank-3 tensor of the prediction's
(batch, height, width) shape rather than raising a configuration error. -/
theorem generalizedLoss_no_alpha_validation (alpha beta : ℝ) (y_true y_pred : Tensor4) :
    (GeneralizedLoss.mk alpha beta).alpha = alpha
      ∧ (GeneralizedLoss.mk alpha beta).beta = beta
      ∧ (GeneralizedLoss.call ⟨alpha, beta⟩ y_true y_pred).b = y_pred.b
      ∧ (GeneralizedLoss.call ⟨alpha, beta⟩ y_true y_pred).h = y_pred.h
      ∧ (GeneralizedLoss.call ⟨alpha, beta⟩ y_true y_pred).w = y_pred.w := by
  refine ⟨rfl, rfl, ?_, ?_, ?_⟩ <;>
    simp [GeneralizedLoss.call, Tensor4.meanLast, Tensor4.map, Tensor4.sub, Tensor4.zipWith]

theorem Tensor4.zipWith_b (f : ℝ → ℝ → ℝ) (x y : Tensor4) : (Tensor4.zipWith f x y).b = x.b := rfl

theorem Tensor4.zipWith_h (f : ℝ → ℝ → ℝ) (x y : Tensor4) : (Tensor4.zipWith f x y).h = x.h := rfl

theorem Tensor4.zipWith_w (f : ℝ → ℝ → ℝ) (x y : Tensor4) : (Tensor4.zipWith f x y).w = x.w := rfl

theorem Tensor4.zipWith_c (f : ℝ → ℝ → ℝ) (x y : Tensor4) : (Tensor4.zipWith f x y).c = x.c := rfl

theorem Tensor4.map_b (f : ℝ → ℝ) (x : Tensor4) : (Tensor4.map f x).b = x.b := rfl

theorem Tensor4.map_h (f : ℝ → ℝ) (x : Tensor4) : (Tensor4.map f x).h = x.h := rfl

theorem Tensor4.map_w (f : ℝ → ℝ) (x : Tensor4) : (Tensor4.map f x).w = x.w := rfl

theorem Tensor4.map_c (f : ℝ → ℝ) (x : Tensor4) : (Tensor4.map f x).c = x.c := rfl

theorem Tensor4.sliceH_dims (t : Tensor4) (s : ℤ) (st : Option ℤ) :
    (t.sliceH s st).b = t.b ∧ (t.sliceH s st).h = (sliceIdx t.h s st).2
      ∧ (t.sliceH s st).w = t.w ∧ (t.sliceH s st).c = t.c :=
  ⟨rfl, rfl, rfl, rfl⟩

theorem Tensor4.sliceW_dims (t : Tensor4) (s : ℤ) (st : Option ℤ) :
    (t.sliceW s st).b = t.b ∧ (t.sliceW s st).h = t.h
      ∧ (t.sliceW s st).w = (sliceIdx t.w s st).2 ∧ (t.sliceW s st).c = t.c :=
  ⟨rfl, rfl, rfl, rfl⟩

theorem Tensor4.concatH_h (x y : Tensor4) : (Tensor4.concatH x y).h = x.h + y.h := rfl

theorem Tensor4.concatH_w (x y : Tensor4) : (Tensor4.concatH x y).w = x.w := rfl

theorem Tensor4.concatW_h (x y : Tensor4) : (Tensor4.concatW x y).h = x.h := rfl

theorem Tensor4.concatW_w (x y : Tensor4) : (Tensor4.concatW x y).w = x.w + y.w := rfl

/-- Length of a Python slice `a:b` of the kinds used by the gradient helpers,
as plain natural-number arithmetic. -/
theorem sliceIdx_len (n : ℕ) (s : ℤ) (st : Option ℤ) :
    (sliceIdx n s st).2
      = (match st with
          | none => n
          | some t => if t < 0 then (t + n).toNat else min t.toNat n)
        - (if s < 0 then (s + n).toNat else min s.toNat n) := rfl

/-- Shape of the `_diff_xy` output: height is preserved. -/
theorem GradientLoss.diff_xy_h (img : Tensor4) (hh : 2 ≤ img.h) :
    (GradientLoss.diff_xy img).h = img.h := by
  show (sliceIdx img.h 0 (some 1)).2
      + (sliceIdx img.h 0 (some (-2))).2 + (sliceIdx img.h (-2) (some (-1))).2 = img.h
  norm_num [sliceIdx]
  omega

/-- Shape of the `_diff_xy` output: width is preserved. -/
theorem GradientLoss.diff_xy_w (img : Tensor4) (hw : 2 ≤ img.w) :
    (GradientLoss.diff_xy img).w = img.w := by
  show (sliceIdx img.w 1 (some 2)).2
      + (sliceIdx img.w 2 none).2 + (sliceIdx img.w (-1) none).2 = img.w
  norm_num [sliceIdx]
  omega

/-- Claim C1: `GradientLoss._diff_xy` returns the all-zero tensor, because
`xy_out1` and `xy_out2` are built from the same (rebound) variables and then
subtracted; for genuine images (height and width at least 2) the output also
has exactly the input's shape. -/
theorem diff_xy_always_zero (img : Tensor4) :
    (∀ i j k l, (GradientLoss.diff_xy img).data i j k l = 0)
      ∧ (2 ≤ img.h → 2 ≤ img.w →
          (GradientLoss.diff_xy img).b = img.b
            ∧ (GradientLoss.diff_xy img).h = img.h
            ∧ (GradientLoss.diff_xy img).w = img.w
            ∧ (GradientLoss.diff_xy img).c = img.c) := by
  refine ⟨fun i j k l => ?_, fun hh hw =>
    ⟨rfl, GradientLoss.diff_xy_h img hh, GradientLoss.diff_xy_w img hw, rfl⟩⟩
  show ((Tensor4.sub _ _).data i j k l) * 0.25 = 0
  simp [Tensor4.sub, Tensor4.zipWith]

/-- Witness for C1 on a concrete 2-by-2 image. -/
theorem diff_xy_always_zero_witness :
    ((2:ℕ) ≤ 2 ∧ (2:ℕ) ≤ 2)
      ∧ (GradientLoss.diff_xy (constT 1 2 2 1 5)).data 0 0 0 0 = 0
      ∧ (GradientLoss.diff_xy (constT 1 2 2 1 5)).h = 2 :=
  ⟨⟨by decide, by decide⟩, (diff_xy_always_zero (constT 1 2 2 1 5)).1 0 0 0 0,
    ((diff_xy_always_zero (constT 1 2 2 1 5)).2 (by decide) (by decide)).2.1⟩

/-- The 1-D analog `[0, 2, 4, 6]` from the spec, as a 1x1x4x1 image. -/
def rampImg : Tensor4 := ⟨1, 1, 4, 1, fun _ _ k _ => 2 * (k : ℝ)⟩

/-- Claim C3 counterexample: on the input `[0, 2, 4, 6]` the first element of
the field returned by `_diff_x` is `(value[1] - value[0]) * 0.5 = 1`, not the
claimed unscaled one-sided difference 2 (the function multiplies the
concatenated differences by 0.5). -/
theorem diff_x_first_element_not_two :
    (GradientLoss.diff_x rampImg).data 0 0 0 0 = 1
      ∧ (GradientLoss.diff_x rampImg).data 0 0 0 0 ≠ 2 := by
  have h : (GradientLoss.diff_x rampImg).data 0 0 0 0 = 1 := by
    norm_num [GradientLoss.diff_x, rampImg, Tensor4.smul, Tensor4.map, Tensor4.concat3W,
      Tensor4.concatW, Tensor4.sub, Tensor4.zipWith, Tensor4.sliceW, sliceIdx]
  exact ⟨h, by rw [h]; norm_num⟩

/-- Claim C3 amended: `_diff_x` preserves the spatial size and uses one-sided
differences at the boundary scaled by the central-difference factor 0.5: the
first element equals `(value[1] - value[0]) * 0.5` (so 1, not 0 and not 2, on
the ramp `[0, 2, 4, 6]`). -/
theorem diff_x_boundary_one_sided (img : Tensor4) (hw : 2 ≤ img.w) :
    ((GradientLoss.diff_x img).b = img.b
        ∧ (GradientLoss.diff_x img).h = img.h
        ∧ (GradientLoss.diff_x img).w = img.w
        ∧ (GradientLoss.diff_x img).c = img.c)
      ∧ ∀ i j l, (GradientLoss.diff_x img).data i j 0 l
          = (img.data i j 1 l - img.data i j 0 l) * 0.5 := by
  have h2 : min (2:ℕ) img.w = 2 := Nat.min_eq_left hw
  have h1 : min (1:ℕ) img.w = 1 := Nat.min_eq_left (by omega)
  constructor
  · refine ⟨rfl, rfl, ?_, rfl⟩
    show (sliceIdx img.w 1 (some 2)).2
        + (sliceIdx img.w 2 none).2 + (sliceIdx img.w (-1) none).2 = img.w
    norm_num [sliceIdx]
    omega
  · intro i j l
    simp [GradientLoss.diff_x, Tensor4.smul, Tensor4.map, Tensor4.concat3W,
      Tensor4.concatW, Tensor4.sub, Tensor4.zipWith, Tensor4.sliceW, sliceIdx, h1, h2]

/-- Witness for the amended C3 on a concrete two-pixel-wide image. -/
theorem diff_x_boundary_one_sided_witness :
    (2:ℕ) ≤ 2
      ∧ (GradientLoss.diff_x ⟨1, 1, 2, 1, fun _ _ k _ => (k : ℝ)⟩).data 0 0 0 0
          = ((⟨1, 1, 2, 1, fun _ _ k _ => (k : ℝ)⟩ : Tensor4).data 0 0 1 0
              - (⟨1, 1, 2, 1, fun _ _ k _ => (k : ℝ)⟩ : Tensor4).data 0 0 0 0) * 0.5 :=
  ⟨by decide,
    (diff_x_boundary_one_sided ⟨1, 1, 2, 1, fun _ _ k _ => (k : ℝ)⟩ (by decide)).2 0 0 0⟩

/-- The spec's per-element generalized loss:
`d = (pred - true)/beta`;
`loss_elem = (|2 - alpha|/alpha) * ((d^2/|2 - alpha| + 1)^(alpha/2) - 1)`. -/
noncomputable def lossElemSpec (alpha beta tv pv : ℝ) : ℝ :=
  let d := (pv - tv) / beta
  (|2 - alpha| / alpha) * (Real.rpow (d ^ 2 / |2 - alpha| + 1) (alpha / 2) - 1)

/-- Claim C2's description of the reduction: beta times the mean of
`loss_elem` over all non-batch axes, one value per sample. -/
noncomputable def genLossMeanAllNonBatch (alpha beta : ℝ) (y_true y_pred : Tensor4) : Tensor1 :=
  ⟨y_pred.b, fun i =>
    beta * ((∑ j ∈ Finset.range y_pred.h, ∑ k ∈ Finset.range y_pred.w,
        ∑ l ∈ Finset.range y_pred.c,
        lossElemSpec alpha beta (y_true.data i j k l) (y_pred.data i j k l))
      / (y_pred.h * y_pred.w * y_pred.c))⟩

/-- Ground truth used in the C2 counterexample: the zero 1x2x1x1 tensor. -/
def c2True : Tensor4 := constT 1 2 1 1 0

/-- Prediction used in the C2 counterexample: 0 in the first row, 2 in the
second row. -/
def c2Pred : Tensor4 := ⟨1, 2, 1, 1, fun _ j _ _ => if j = 1 then 2 else 0⟩

/-- Claim C2 counterexample: with `alpha = 4`, `beta = 1` (a valid parameter
choice) and a 1x2x1x1 input pair, the value returned by
`GeneralizedLoss.call` at position (0, 1, 0) is 4, while beta times the mean
of `loss_elem` over all non-batch axes of sample 0 is 2: `call` does not
return the all-non-batch-axes mean. -/
theorem generalizedLoss_not_mean_all_axes :
    (GeneralizedLoss.call ⟨4, 1⟩ c2True c2Pred).data 0 1 0
      ≠ (genLossMeanAllNonBatch 4 1 c2True c2Pred).data 0 := by
  have hpow : ∀ x : ℝ, Real.rpow x ((4:ℝ) / 2) = x ^ 2 := by
    intro x
    rw [show (4:ℝ) / 2 = ((2:ℕ) : ℝ) by norm_num]
    exact Real.rpow_natCast x 2
  have hcall : (GeneralizedLoss.call ⟨4, 1⟩ c2True c2Pred).data 0 1 0 = 4 := by
    simp [GeneralizedLoss.call, Tensor4.meanLast, Tensor4.map, Tensor4.sub, Tensor4.zipWith,
      c2True, c2Pred, constT, hpow]
    norm_num
  have hspec : (genLossMeanAllNonBatch 4 1 c2True c2Pred).data 0 = 2 := by
    simp [genLossMeanAllNonBatch, lossElemSpec, c2True, c2Pred, constT, hpow,
      Finset.sum_range_succ]
    norm_num
  rw [hcall, hspec]
  norm_num

/-- Claim C2 amended: for valid parameters (`alpha` not 0 or 2, `beta > 0`),
`GeneralizedLoss.call` returns beta times the mean of `loss_elem` over the
channel (last) axis only, yielding a rank-3 (batch, height, width) tensor;
the remaining axes are not reduced by `call`. -/
theorem generalizedLoss_call_channel_mean (alpha beta : ℝ) (y_true y_pred : Tensor4)
    (h0 : alpha ≠ 0) (h2 : alpha ≠ 2) (hb : 0 < beta) :
    ((GeneralizedLoss.call ⟨alpha, beta⟩ y_true y_pred).b = y_pred.b
        ∧ (GeneralizedLoss.call ⟨alpha, beta⟩ y_true y_pred).h = y_pred.h
        ∧ (GeneralizedLoss.call ⟨alpha, beta⟩ y_true y_pred).w = y_pred.w)
      ∧ ∀ i j k, (GeneralizedLoss.call ⟨alpha, beta⟩ y_true y_pred).data i j k
          = beta * ((∑ l ∈ Finset.range y_pred.c,
              lossElemSpec alpha beta (y_true.data i j k l) (y_pred.data i j k l))
            / y_pred.c) := by
  refine ⟨⟨rfl, rfl, rfl⟩, fun i j k => ?_⟩
  simp only [GeneralizedLoss.call, Tensor4.meanLast, Tensor4.map, Tensor4.sub,
    Tensor4.zipWith, lossElemSpec]
  ring

/-- Witness for the amended C2 at `alpha = 1`, `beta = 1` on 1x1x1x1 tensors. -/
theorem generalizedLoss_call_channel_mean_witness :
    ((1:ℝ) ≠ 0 ∧ (1:ℝ) ≠ 2 ∧ (0:ℝ) < 1)
      ∧ (GeneralizedLoss.call ⟨1, 1⟩ (constT 1 1 1 1 0) (constT 1 1 1 1 3)).data 0 0 0
          = 1 * ((∑ l ∈ Finset.range (constT 1 1 1 1 3).c,
              lossElemSpec 1 1 ((constT 1 1 1 1 0).data 0 0 0 l)
                ((constT 1 1 1 1 3).data 0 0 0 l)) / (constT 1 1 1 1 3).c) :=
  ⟨⟨by norm_num, by norm_num, by norm_num⟩,
    (generalizedLoss_call_channel_mean 1 1 (constT 1 1 1 1 0) (constT 1 1 1 1 3)
      (by norm_num) (by norm_num) (by norm_num)).2 0 0 0⟩

/-- The iterated maximum agrees with `Finset.sup'` over `range n`. -/
theorem natMax_eq_sup' (f : ℕ → ℝ) (n : ℕ) (hn : n ≠ 0) :
    natMax n f = (Finset.range n).sup' (Finset.nonempty_range_iff.mpr hn) f := by
  induction n with
  | zero => exact absurd rfl hn
  | succ m ih =>
    rcases Nat.eq_zero_or_pos m with hm | hm
    · subst hm
      simp [natMax]
    · have hm' : m ≠ 0 := by omega
      have step : (Finset.range (m + 1)).sup' (Finset.nonempty_range_iff.mpr hn) f
          = f m ⊔ (Finset.range m).sup' (Finset.nonempty_range_iff.mpr hm') f := by
        rw [← Finset.sup'_insert]
        exact Finset.sup'_congr _ Finset.range_succ fun x _ => rfl
      rw [natMax, ih hm', step, sup_eq_max, max_comm]

/-- Claim C8: `LInfNorm.call` yields a (batch, 1, 1)-shaped result holding,
per sample, the mean over the channel axis of the maximum over the two
spatial axes of the absolute pixel-wise error. -/
theorem linf_norm_max_then_channel_mean (y_true y_pred : Tensor4)
    (hh : y_true.h ≠ 0) (hw : y_true.w ≠ 0) (hc : y_true.c ≠ 0) :
    ((LInfNorm.call y_true y_pred).b = y_true.b
        ∧ (LInfNorm.call y_true y_pred).h = 1
        ∧ (LInfNorm.call y_true y_pred).w = 1)
      ∧ ∀ i, (LInfNorm.call y_true y_pred).data i 0 0
          = (∑ l ∈ Finset.range y_true.c,
              (Finset.range y_true.h).sup' (Finset.nonempty_range_iff.mpr hh) (fun j =>
                (Finset.range y_true.w).sup' (Finset.nonempty_range_iff.mpr hw) (fun k =>
                  |y_true.data i j k l - y_pred.data i j k l|)))
            / y_true.c := by
  refine ⟨⟨rfl, rfl, rfl⟩, fun i => ?_⟩
  show (∑ l ∈ Finset.range y_true.c,
      natMax y_true.h (fun j => natMax y_true.w (fun k =>
        |y_true.data i j k l - y_pred.data i j k l|))) / y_true.c = _
  congr 1
  refine Finset.sum_congr rfl fun l _ => ?_
  rw [natMax_eq_sup' _ _ hh]
  refine Finset.sup'_congr _ rfl fun j _ => ?_
  rw [natMax_eq_sup' _ _ hw]

/-- Witness for C8 on concrete 1x1x1x1 tensors. -/
theorem linf_norm_max_then_channel_mean_witness :
    ((1:ℕ) ≠ 0 ∧ (1:ℕ) ≠ 0 ∧ (1:ℕ) ≠ 0)
      ∧ (LInfNorm.call (constT 1 1 1 1 3) (constT 1 1 1 1 1)).data 0 0 0
          = (∑ l ∈ Finset.range (constT 1 1 1 1 3).c,
              (Finset.range (constT 1 1 1 1 3).h).sup'
                (Finset.nonempty_range_iff.mpr (by decide)) (fun j =>
                  (Finset.range (constT 1 1 1 1 3).w).sup'
                    (Finset.nonempty_range_iff.mpr (by decide)) (fun k =>
                      |(constT 1 1 1 1 3).data 0 j k l
                        - (constT 1 1 1 1 1).data 0 j k l|)))
            / (constT 1 1 1 1 3).c :=
  ⟨⟨by decide, by decide, by decide⟩,
    (linf_norm_max_then_channel_mean (constT 1 1 1 1 3) (constT 1 1 1 1 1)
      (by decide) (by decide) (by decide)).2 0⟩

/-- The 5x5 modified Scharr kernel bank of `GMSDLoss._scharr_edges`
(losses_tf.py lines 431-455): entry `(row, col)` holds the pair of
coefficients for the two orientations. -/
def scharrMatrix : List (List (ℝ × ℝ)) :=
  [[(0.00070, 0.00070), (0.00520, 0.00370), (0.03700, 0.00000), (0.00520, -0.0037), (0.00070, -0.0007)],
   [(0.00370, 0.00520), (0.11870, 0.11870), (0.25890, 0.00000), (0.11870, -0.1187), (0.00370, -0.0052)],
   [(0.00000, 0.03700), (0.00000, 0.25890), (0.00000, 0.00000), (0.00000, -0.2589), (0.00000, -0.0370)],
   [(-0.0037, 0.00520), (-0.1187, 0.11870), (-0.2589, 0.00000), (-0.1187, -0.1187), (-0.0037, -0.0052)],
   [(-0.0007, 0.00070), (-0.0052, 0.00370), (-0.0370, 0.00000), (-0.0052, -0.0037), (-0.0007, -0.0007)]]

/-- Coefficient lookup in the Scharr kernel bank (orientation `q` is 0 or 1). -/
def scharrKernel (a bb q : ℕ) : ℝ :=
  let p := (scharrMatrix.getD a []).getD bb (0, 0)
  if q = 0 then p.1 else p.2

/-- Index map of TensorFlow `REFLECT` padding: position `r` of the padded axis
(as an integer offset into the original axis of length `n`) is mirrored
without repeating the edge sample. -/
def reflectIdx (n : ℕ) (r : ℤ) : ℕ :=
  if r < 0 then (-r).toNat else if (n : ℤ) ≤ r then (2 * (n : ℤ) - 2 - r).toNat else r.toNat

/-- `tf.pad(image, [[0,0],[2,2],[2,2],[0,0]], mode='REFLECT')`. -/
def reflectPad2 (x : Tensor4) : Tensor4 :=
  ⟨x.b, x.h + 4, x.w + 4, x.c, fun i j k l =>
    x.data i (reflectIdx x.h ((j : ℤ) - 2)) (reflectIdx x.w ((k : ℤ) - 2)) l⟩

/-- `GMSDLoss._scharr_edges` with `magnitude=True` (losses_tf.py lines
406-475): reflect-pad by 2, then depthwise-convolve with the kernel bank
tiled over the input channels; output channel `l * 2 + q` pairs input channel
`l` with orientation `q`. -/
noncomputable def GMSDLoss.scharr_edges (image : Tensor4) : Tensor4 :=
  let padded := reflectPad2 image
  ⟨image.b, image.h, image.w, image.c * 2, fun i j k m =>
    ∑ a ∈ Finset.range 5, ∑ bb ∈ Finset.range 5,
      padded.data i (j + a) (k + bb) (m / 2) * scharrKernel a bb (m % 2)⟩

/-- `GMSDLoss.call` (losses_tf.py lines 380-404):
`gms = (2*true_edge*pred_edge + eph) / (true_edge^2 + pred_edge^2 + eph)`,
`gmsd = K.squeeze(K.std(gms, axis=(1,2,3), keepdims=True), axis=-1)`. -/
noncomputable def GMSDLoss.call (y_true y_pred : Tensor4) : Tensor3 :=
  let true_edge := GMSDLoss.scharr_edges y_true
  let pred_edge := GMSDLoss.scharr_edges y_pred
  let ephsilon : ℝ := 0.0025
  let upper := (Tensor4.mulT true_edge pred_edge).smul 2.0
  let lower := Tensor4.addT (Tensor4.map (fun v => v ^ 2) true_edge)
    (Tensor4.map (fun v => v ^ 2) pred_edge)
  let gms := Tensor4.zipWith (fun u lo => (u + ephsilon) / (lo + ephsilon)) upper lower
  let gmsd := Tensor4.stdHWCKeep gms
  Tensor4.squeezeLast gmsd

/-- The standard deviation of a per-sample-constant field is zero. -/
theorem stdHWCKeep_of_const (t : Tensor4) (v : ℝ) (i : ℕ)
    (hconst : ∀ j k l, t.data i j k l = v) (a b d : ℕ) :
    (Tensor4.stdHWCKeep t).data i a b d = 0 := by
  show Real.sqrt _ = 0
  by_cases hz : ((t.h : ℝ) * t.w * t.c) = 0
  · have hzero : (∑ j ∈ Finset.range t.h, ∑ k ∈ Finset.range t.w, ∑ l ∈ Finset.range t.c,
        (t.data i j k l - Tensor4.meanHWC t i) ^ 2) = 0 := by
      have : t.h = 0 ∨ t.w = 0 ∨ t.c = 0 := by
        have := mul_eq_zero.mp hz
        rcases this with h' | h'
        · rcases mul_eq_zero.mp h' with h'' | h''
          · exact Or.inl (Nat.cast_eq_zero.mp h'')
          · exact Or.inr (Or.inl (Nat.cast_eq_zero.mp h''))
        · exact Or.inr (Or.inr (Nat.cast_eq_zero.mp h'))
      rcases this with h' | h' | h' <;> simp [h']
    rw [hzero, zero_div, Real.sqrt_zero]
  · have hmean : Tensor4.meanHWC t i = v := by
      rw [Tensor4.meanHWC]
      have : (∑ j ∈ Finset.range t.h, ∑ k ∈ Finset.range t.w, ∑ l ∈ Finset.range t.c,
          t.data i j k l) = (t.h : ℝ) * t.w * t.c * v := by
        simp only [hconst]
        simp [Finset.sum_const, Finset.card_range]
        ring
      rw [this]
      exact mul_div_cancel_left₀ v hz
    have hzero : (∑ j ∈ Finset.range t.h, ∑ k ∈ Finset.range t.w, ∑ l ∈ Finset.range t.c,
        (t.data i j k l - Tensor4.meanHWC t i) ^ 2) = 0 := by
      simp [hconst, hmean]
    rw [hzero, zero_div, Real.sqrt_zero]

/-- On identical inputs the GMSD per-pixel similarity field is constantly 1,
so its standard deviation vanishes. -/
theorem gmsd_call_self_zero (y : Tensor4) (i a b : ℕ) :
    (GMSDLoss.call y y).data i a b = 0 := by
  refine stdHWCKeep_of_const _ 1 i (fun j k l => ?_) a b 0
  simp only [Tensor4.zipWith, Tensor4.smul, Tensor4.map, Tensor4.mulT, Tensor4.addT]
  have hpos : (GMSDLoss.scharr_edges y).data i j k l ^ 2
      + (GMSDLoss.scharr_edges y).data i j k l ^ 2 + (0.0025 : ℝ) ≠ 0 := by positivity
  field_simp
  ring

/-- On identical inputs every entry of `GeneralizedLoss.call` is zero: the
difference is zero, so the inner base is 1 and `1 ^ (alpha/2) - 1 = 0`. -/
theorem generalizedLoss_call_self (gl : GeneralizedLoss) (t : Tensor4) (i j k : ℕ) :
    (GeneralizedLoss.call gl t t).data i j k = 0 := by
  simp [GeneralizedLoss.call, Tensor4.meanLast, Tensor4.map, Tensor4.sub, Tensor4.zipWith,
    Real.one_rpow]

/-- On identical inputs the Keras-reduced generalized loss is zero. -/
theorem generalizedLoss_kerasCall_self (gl : GeneralizedLoss) (t : Tensor4) :
    GeneralizedLoss.kerasCall gl t t = 0 := by
  rw [GeneralizedLoss.kerasCall, Tensor3.meanAll]
  simp [generalizedLoss_call_self]

/-- The iterated maximum of the zero function is zero. -/
theorem natMax_zero_fun : ∀ n : ℕ, natMax n (fun _ => (0:ℝ)) = 0
  | 0 => rfl
  | n + 1 => by rw [natMax, natMax_zero_fun n]; exact max_self 0

/-- On identical inputs every entry of `LInfNorm.call` is zero. -/
theorem linf_call_self (y : Tensor4) (i a b : ℕ) :
    (LInfNorm.call y y).data i a b = 0 := by
  simp [LInfNorm.call, Tensor4.meanLast, Tensor4.maxSpatialKeep, Tensor4.map, Tensor4.sub,
    Tensor4.zipWith, natMax_zero_fun]

/-- On identical inputs the gradient loss is zero: every derivative field is
compared against itself. -/
theorem gradientLoss_call_self (y : Tensor4) : GradientLoss.call y y = 0 := by
  rw [GradientLoss.call]
  simp [generalizedLoss_kerasCall_self]
  norm_num

/-- Window coordinate of TensorFlow's `_fspecial_gauss`:
`coords = arange(size) - (size - 1) / 2`. -/
noncomputable def gaussCoord (size j : ℕ) : ℝ := (j : ℝ) - ((size : ℝ) - 1) / 2

/-- Unnormalised Gaussian window weight
`exp(-(cj^2 + ck^2) / (2 * sigma^2))`. -/
noncomputable def gaussUnnorm (size : ℕ) (sigma : ℝ) (j k : ℕ) : ℝ :=
  Real.exp (-(gaussCoord size j ^ 2 + gaussCoord size k ^ 2) / (2 * sigma ^ 2))

/-- The normalised Gaussian window of `_fspecial_gauss` (a softmax of the
log-weights over the flattened size x size grid). -/
noncomputable def gaussWin (size : ℕ) (sigma : ℝ) (j k : ℕ) : ℝ :=
  gaussUnnorm size sigma j k
    / ∑ p ∈ Finset.range size ×ˢ Finset.range size, gaussUnnorm size sigma p.1 p.2

theorem gaussDen_pos (size : ℕ) (sigma : ℝ) (hs : size ≠ 0) :
    0 < ∑ p ∈ Finset.range size ×ˢ Finset.range size, gaussUnnorm size sigma p.1 p.2 :=
  Finset.sum_pos (fun p _ => Real.exp_pos _)
    ((Finset.nonempty_range_iff.mpr hs).product (Finset.nonempty_range_iff.mpr hs))

theorem gaussWin_nonneg (size : ℕ) (sigma : ℝ) (hs : size ≠ 0) (j k : ℕ) :
    0 ≤ gaussWin size sigma j k :=
  div_nonneg (Real.exp_pos _).le (gaussDen_pos size sigma hs).le

theorem gaussWin_sum_one (size : ℕ) (sigma : ℝ) (hs : size ≠ 0) :
    ∑ p ∈ Finset.range size ×ˢ Finset.range size, gaussWin size sigma p.1 p.2 = 1 := by
  rw [show (∑ p ∈ Finset.range size ×ˢ Finset.range size, gaussWin size sigma p.1 p.2)
      = (∑ p ∈ Finset.range size ×ˢ Finset.range size, gaussUnnorm size sigma p.1 p.2)
        / (∑ p ∈ Finset.range size ×ˢ Finset.range size, gaussUnnorm size sigma p.1 p.2)
    from (Finset.sum_div _ _ _).symm]
  exact div_self (ne_of_gt (gaussDen_pos size sigma hs))

/-- Gaussian-windowed local statistic (one output position of the `VALID`
depthwise convolution used by `tf.image.ssim`). -/
noncomputable def localStat (size : ℕ) (sigma : ℝ) (f : ℕ → ℕ → ℝ) : ℝ :=
  ∑ p ∈ Finset.range size ×ˢ Finset.range size, gaussWin size sigma p.1 p.2 * f p.1 p.2

/-- The windowed second moment dominates the squared windowed mean (the local
variance of `tf.image.ssim` is nonnegative). -/
theorem localStat_variance_nonneg (size : ℕ) (sigma : ℝ) (f : ℕ → ℕ → ℝ) (hs : size ≠ 0) :
    0 ≤ localStat size sigma (fun a b => f a b ^ 2) - localStat size sigma f ^ 2 := by
  have key : localStat size sigma (fun a b => f a b ^ 2) - localStat size sigma f ^ 2
      = ∑ p ∈ Finset.range size ×ˢ Finset.range size,
          gaussWin size sigma p.1 p.2 * (f p.1 p.2 - localStat size sigma f) ^ 2 := by
    have expand : ∀ p ∈ Finset.range size ×ˢ Finset.range size,
        gaussWin size sigma p.1 p.2 * (f p.1 p.2 - localStat size sigma f) ^ 2
          = gaussWin size sigma p.1 p.2 * f p.1 p.2 ^ 2
            - 2 * localStat size sigma f * (gaussWin size sigma p.1 p.2 * f p.1 p.2)
            + localStat size sigma f ^ 2 * gaussWin size sigma p.1 p.2 :=
      fun p _ => by ring
    rw [eq_comm, Finset.sum_congr rfl expand, Finset.sum_add_distrib,
      Finset.sum_sub_distrib, ← Finset.mul_sum, ← Finset.mul_sum,
      gaussWin_sum_one size sigma hs]
    rw [show (∑ p ∈ Finset.range size ×ˢ Finset.range size,
        gaussWin size sigma p.1 p.2 * f p.1 p.2) = localStat size sigma f from rfl]
    rw [show (∑ p ∈ Finset.range size ×ˢ Finset.range size,
        gaussWin size sigma p.1 p.2 * f p.1 p.2 ^ 2)
      = localStat size sigma (fun a b => f a b ^ 2) from rfl]
    ring
  rw [key]
  exact Finset.sum_nonneg fun p _ =>
    mul_nonneg (gaussWin_nonneg size sigma hs p.1 p.2) (sq_nonneg _)

/-- Luminance factor of `tf.image.ssim` at one output position and channel:
`(2 mx my + c1) / (mx^2 + my^2 + c1)` with `c1 = (k1 * max_val)^2` and `mx`,
`my` the Gaussian-windowed local means. -/
noncomputable def ssimLum (k1 maxval : ℝ) (size : ℕ) (sigma : ℝ) (x y : Tensor4)
    (i j k l : ℕ) : ℝ :=
  (2 * localStat size sigma (fun a b => x.data i (j + a) (k + b) l)
      * localStat size sigma (fun a b => y.data i (j + a) (k + b) l)
    + (k1 * maxval) ^ 2)
  / (localStat size sigma (fun a b => x.data i (j + a) (k + b) l) ^ 2
    + localStat size sigma (fun a b => y.data i (j + a) (k + b) l) ^ 2
    + (k1 * maxval) ^ 2)

/-- Contrast-structure factor of `tf.image.ssim` at one output position and
channel: `(2 cov + c2) / (varx + vary + c2)` with `c2 = (k2 * max_val)^2`,
computed as in TensorFlow from windowed raw moments. -/
noncomputable def ssimCS (k2 maxval : ℝ) (size : ℕ) (sigma : ℝ) (x y : Tensor4)
    (i j k l : ℕ) : ℝ :=
  (2 * (localStat size sigma (fun a b => x.data i (j + a) (k + b) l * y.data i (j + a) (k + b) l)
        - localStat size sigma (fun a b => x.data i (j + a) (k + b) l)
          * localStat size sigma (fun a b => y.data i (j + a) (k + b) l))
    + (k2 * maxval) ^ 2)
  / ((localStat size sigma (fun a b => x.data i (j + a) (k + b) l ^ 2)
        - localStat size sigma (fun a b => x.data i (j + a) (k + b) l) ^ 2)
    + (localStat size sigma (fun a b => y.data i (j + a) (k + b) l ^ 2)
        - localStat size sigma (fun a b => y.data i (j + a) (k + b) l) ^ 2)
    + (k2 * maxval) ^ 2)

/-- Per-channel SSIM of `tf.image.ssim`: the mean of luminance times
contrast-structure over the `VALID` output positions. -/
noncomputable def ssimPosMean (k1 k2 maxval : ℝ) (size : ℕ) (sigma : ℝ) (x y : Tensor4)
    (i l : ℕ) : ℝ :=
  (∑ j ∈ Finset.range (x.h + 1 - size), ∑ k ∈ Finset.range (x.w + 1 - size),
      ssimLum k1 maxval size sigma x y i j k l * ssimCS k2 maxval size sigma x y i j k l)
    / (((x.h + 1 - size : ℕ) : ℝ) * ((x.w + 1 - size : ℕ) : ℝ))

/-- Per-channel mean contrast-structure factor (the `cs` output of
TensorFlow's `_ssim_per_channel`). -/
noncomputable def csPosMean (k2 maxval : ℝ) (size : ℕ) (sigma : ℝ) (x y : Tensor4)
    (i l : ℕ) : ℝ :=
  (∑ j ∈ Finset.range (x.h + 1 - size), ∑ k ∈ Finset.range (x.w + 1 - size),
      ssimCS k2 maxval size sigma x y i j k l)
    / (((x.h + 1 - size : ℕ) : ℝ) * ((x.w + 1 - size : ℕ) : ℝ))

/-- Model of `tf.image.ssim`: per-channel position means, then the mean over
channels, one value per sample. -/
noncomputable def tfSSIM (k1 k2 maxval : ℝ) (size : ℕ) (sigma : ℝ) (x y : Tensor4) : Tensor1 :=
  ⟨x.b, fun i => (∑ l ∈ Finset.range x.c, ssimPosMean k1 k2 maxval size sigma x y i l) / x.c⟩

/-- `DSSIMObjective.call` (losses_tf.py lines 49-72):
`(1 - tf.image.ssim(y_true, y_pred, ...)) / 2.0`. -/
noncomputable def DSSIMObjective.call (k_1 k_2 : ℝ) (filter_size : ℕ)
    (filter_sigma max_value : ℝ) (y_true y_pred : Tensor4) : Tensor1 :=
  let ssim := tfSSIM k_1 k_2 max_value filter_size filter_sigma y_true y_pred
  ⟨ssim.b, fun i => (1 - ssim.data i) / 2.0⟩

/-- The 2x2 stride-2 average pooling applied between scales by
`tf.image.ssim_multiscale`; odd axes are padded to even length by repeating
the last row/column (`SYMMETRIC` padding), modelled by clamping the index. -/
noncomputable def avgPool2 (x : Tensor4) : Tensor4 :=
  ⟨x.b, (x.h + 1) / 2, (x.w + 1) / 2, x.c, fun i j k l =>
    (x.data i (2 * j) (2 * k) l
      + x.data i (min (2 * j + 1) (x.h - 1)) (2 * k) l
      + x.data i (2 * j) (min (2 * k + 1) (x.w - 1)) l
      + x.data i (min (2 * j + 1) (x.h - 1)) (min (2 * k + 1) (x.w - 1)) l) / 4⟩

/-- `avgPool2` iterated `s` times (the image fed to scale `s`). -/
noncomputable def iterPool : ℕ → Tensor4 → Tensor4
  | 0, x => x
  | s + 1, x => avgPool2 (iterPool s x)

/-- Model of `tf.image.ssim_multiscale`: per channel, the product over scales
of the mean contrast-structure factors raised to the power factors, with the
full SSIM mean at the coarsest scale; then the mean over channels. -/
noncomputable def tfMSSSIM (k1 k2 maxval : ℝ) (size : ℕ) (sigma : ℝ) (pf : List ℝ)
    (x y : Tensor4) : Tensor1 :=
  ⟨x.b, fun i =>
    (∑ l ∈ Finset.range x.c,
      (∏ s ∈ Finset.range (pf.length - 1),
        Real.rpow (csPosMean k2 maxval size sigma (iterPool s x) (iterPool s y) i l)
          (pf.getD s 0))
        * Real.rpow (ssimPosMean k1 k2 maxval size sigma
            (iterPool (pf.length - 1) x) (iterPool (pf.length - 1) y) i l)
          (pf.getD (pf.length - 1) 0)) / x.c⟩

/-- The default power factors of `MSSSIMLoss`. -/
def msssimDefaultPF : List ℝ := [0.0448, 0.2856, 0.3001, 0.2363, 0.1333]

/-- `MSSSIMLoss.call` (losses_tf.py lines 115-144): clamp the filter size by
the smallest reachable scale of the input height, evaluate
`tf.image.ssim_multiscale`, return `1 - ms_ssim`. -/
noncomputable def MSSSIMLoss.call (k_1 k_2 : ℝ) (filter_size : ℕ)
    (filter_sigma max_value : ℝ) (power_factors : List ℝ)
    (y_true y_pred : Tensor4) : Tensor1 :=
  let im_size := y_true.h
  let fsize := MSSSIMLoss.filter_size_used filter_size im_size power_factors.length
  let ms_ssim := tfMSSSIM k_1 k_2 max_value fsize filter_sigma power_factors y_true y_pred
  ⟨ms_ssim.b, fun i => 1 - ms_ssim.data i⟩

/-- The luminance factor is 1 when both inputs coincide. -/
theorem ssimLum_self (k1 maxval : ℝ) (size : ℕ) (sigma : ℝ) (x : Tensor4) (i j k l : ℕ)
    (hk1 : k1 * maxval ≠ 0) :
    ssimLum k1 maxval size sigma x x i j k l = 1 := by
  rw [ssimLum]
  have hc1 : (0:ℝ) < (k1 * maxval) ^ 2 :=
    lt_of_le_of_ne (sq_nonneg _) (Ne.symm (pow_ne_zero 2 hk1))
  have hden : (0:ℝ) < localStat size sigma (fun a b => x.data i (j + a) (k + b) l) ^ 2
      + localStat size sigma (fun a b => x.data i (j + a) (k + b) l) ^ 2
      + (k1 * maxval) ^ 2 := by positivity
  rw [div_eq_one_iff_eq (ne_of_gt hden)]
  ring

/-- The contrast-structure factor is 1 when both inputs coincide. -/
theorem ssimCS_self (k2 maxval : ℝ) (size : ℕ) (sigma : ℝ) (x : Tensor4) (i j k l : ℕ)
    (hs : size ≠ 0) (hk2 : k2 * maxval ≠ 0) :
    ssimCS k2 maxval size sigma x x i j k l = 1 := by
  rw [ssimCS]
  have hsq : (fun a b => x.data i (j + a) (k + b) l * x.data i (j + a) (k + b) l)
      = fun a b => x.data i (j + a) (k + b) l ^ 2 := by
    funext a b
    rw [sq]
  rw [hsq]
  have hc2 : (0:ℝ) < (k2 * maxval) ^ 2 :=
    lt_of_le_of_ne (sq_nonneg _) (Ne.symm (pow_ne_zero 2 hk2))
  have hvar : 0 ≤ localStat size sigma (fun a b => x.data i (j + a) (k + b) l ^ 2)
      - localStat size sigma (fun a b => x.data i (j + a) (k + b) l) ^ 2 :=
    localStat_variance_nonneg size sigma _ hs
  have hden : (0:ℝ) < (localStat size sigma (fun a b => x.data i (j + a) (k + b) l ^ 2)
        - localStat size sigma (fun a b => x.data i (j + a) (k + b) l) ^ 2)
      + (localStat size sigma (fun a b => x.data i (j + a) (k + b) l ^ 2)
        - localStat size sigma (fun a b => x.data i (j + a) (k + b) l) ^ 2)
      + (k2 * maxval) ^ 2 := by
    have := hc2
    nlinarith
  rw [div_eq_one_iff_eq (ne_of_gt hden)]
  ring

/-- The per-channel SSIM position mean is 1 when both inputs coincide. -/
theorem ssimPosMean_self (k1 k2 maxval : ℝ) (size : ℕ) (sigma : ℝ) (x : Tensor4) (i l : ℕ)
    (hs : size ≠ 0) (hh : size ≤ x.h) (hw : size ≤ x.w)
    (hk1 : k1 * maxval ≠ 0) (hk2 : k2 * maxval ≠ 0) :
    ssimPosMean k1 k2 maxval size sigma x x i l = 1 := by
  rw [ssimPosMean]
  have hone : (∑ j ∈ Finset.range (x.h + 1 - size), ∑ k ∈ Finset.range (x.w + 1 - size),
      ssimLum k1 maxval size sigma x x i j k l * ssimCS k2 maxval size sigma x x i j k l)
      = ((x.h + 1 - size : ℕ) : ℝ) * ((x.w + 1 - size : ℕ) : ℝ) := by
    rw [Finset.sum_congr rfl fun j _ => Finset.sum_congr rfl fun k _ => by
      rw [ssimLum_self k1 maxval size sigma x i j k l hk1,
        ssimCS_self k2 maxval size sigma x i j k l hs hk2, one_mul]]
    simp [Finset.sum_const, Finset.card_range]
  rw [hone]
  exact div_self (by
    have h1 : 0 < x.h + 1 - size := by omega
    have h2 : 0 < x.w + 1 - size := by omega
    positivity)

/-- The per-channel contrast-structure position mean is 1 when both inputs
coincide. -/
theorem csPosMean_self (k2 maxval : ℝ) (size : ℕ) (sigma : ℝ) (x : Tensor4) (i l : ℕ)
    (hs : size ≠ 0) (hh : size ≤ x.h) (hw : size ≤ x.w) (hk2 : k2 * maxval ≠ 0) :
    csPosMean k2 maxval size sigma x x i l = 1 := by
  rw [csPosMean]
  have hone : (∑ j ∈ Finset.range (x.h + 1 - size), ∑ k ∈ Finset.range (x.w + 1 - size),
      ssimCS k2 maxval size sigma x x i j k l)
      = ((x.h + 1 - size : ℕ) : ℝ) * ((x.w + 1 - size : ℕ) : ℝ) := by
    rw [Finset.sum_congr rfl fun j _ => Finset.sum_congr rfl fun k _ =>
      ssimCS_self k2 maxval size sigma x i j k l hs hk2]
    simp [Finset.sum_const, Finset.card_range]
  rw [hone]
  exact div_self (by
    have h1 : 0 < x.h + 1 - size := by omega
    have h2 : 0 < x.w + 1 - size := by omega
    positivity)

theorem iterPool_b : ∀ (s : ℕ) (x : Tensor4), (iterPool s x).b = x.b
  | 0, _ => rfl
  | s + 1, x => by rw [iterPool]; exact iterPool_b s x

theorem iterPool_c : ∀ (s : ℕ) (x : Tensor4), (iterPool s x).c = x.c
  | 0, _ => rfl
  | s + 1, x => by rw [iterPool]; exact iterPool_c s x

theorem iterPool_h : ∀ (s : ℕ) (x : Tensor4), (iterPool s x).h = (x.h + 2 ^ s - 1) / 2 ^ s
  | 0, x => by rw [iterPool]; simp
  | s + 1, x => by
    have hpow : 1 ≤ 2 ^ s := Nat.one_le_two_pow
    rw [iterPool]
    show ((iterPool s x).h + 1) / 2 = _
    rw [iterPool_h s x,
      ← Nat.add_div_right (x.h + 2 ^ s - 1) (Nat.pos_of_ne_zero (by positivity)),
      Nat.div_div_eq_div_mul,
      show x.h + 2 ^ s - 1 + 2 ^ s = x.h + 2 ^ (s + 1) - 1 by rw [pow_succ]; omega,
      show 2 ^ s * 2 = 2 ^ (s + 1) from (pow_succ 2 s).symm]

theorem iterPool_w : ∀ (s : ℕ) (x : Tensor4), (iterPool s x).w = (x.w + 2 ^ s - 1) / 2 ^ s
  | 0, x => by rw [iterPool]; simp
  | s + 1, x => by
    have hpow : 1 ≤ 2 ^ s := Nat.one_le_two_pow
    rw [iterPool]
    show ((iterPool s x).w + 1) / 2 = _
    rw [iterPool_w s x,
      ← Nat.add_div_right (x.w + 2 ^ s - 1) (Nat.pos_of_ne_zero (by positivity)),
      Nat.div_div_eq_div_mul,
      show x.w + 2 ^ s - 1 + 2 ^ s = x.w + 2 ^ (s + 1) - 1 by rw [pow_succ]; omega,
      show 2 ^ s * 2 = 2 ^ (s + 1) from (pow_succ 2 s).symm]

/-- The clamped filter size fits every scale reached by at most four
halvings. -/
theorem clamped_filter_le_scale (fs n : ℕ) (h16 : 16 ≤ n) (s : ℕ) (hs : s ≤ 4) :
    min fs (n / 16) ≤ (n + 2 ^ s - 1) / 2 ^ s := by
  have h1 : (2:ℕ) ^ s ≤ 16 := by
    calc (2:ℕ) ^ s ≤ 2 ^ 4 := Nat.pow_le_pow_right (by norm_num) hs
    _ = 16 := by norm_num
  have h2 : n / 16 ≤ n / 2 ^ s :=
    Nat.div_le_div_left h1 (Nat.pos_of_ne_zero (by positivity))
  have hpow : 1 ≤ 2 ^ s := Nat.one_le_two_pow
  have h3 : n / 2 ^ s ≤ (n + 2 ^ s - 1) / 2 ^ s := Nat.div_le_div_right (by omega)
  exact le_trans (min_le_right fs (n / 16)) (le_trans h2 h3)

/-- The clamped filter size is positive for images of height at least 16. -/
theorem clamped_filter_ne_zero (fs n : ℕ) (hfs : fs ≠ 0) (h16 : 16 ≤ n) :
    min fs (n / 16) ≠ 0 := by
  have h1 : 1 ≤ n / 16 := (Nat.one_le_div_iff (by norm_num)).mpr h16
  omega

/-- DSSIM vanishes on identical inputs (for any valid configuration: window
not larger than the image, nonzero channel count, nonzero stability
constants). -/
theorem dssim_call_self (k1 k2 maxval sigma : ℝ) (size : ℕ) (x : Tensor4)
    (hs : size ≠ 0) (hh : size ≤ x.h) (hw : size ≤ x.w) (hc : x.c ≠ 0)
    (hk1 : k1 * maxval ≠ 0) (hk2 : k2 * maxval ≠ 0) (i : ℕ) :
    (DSSIMObjective.call k1 k2 size sigma maxval x x).data i = 0 := by
  have hcast : (x.c : ℝ) ≠ 0 := Nat.cast_ne_zero.mpr hc
  simp only [DSSIMObjective.call, tfSSIM]
  rw [Finset.sum_congr rfl fun l _ =>
    ssimPosMean_self k1 k2 maxval size sigma x i l hs hh hw hk1 hk2]
  rw [Finset.sum_const, Finset.card_range, nsmul_eq_mul, mul_one, div_self hcast]
  norm_num

/-- MS-SSIM loss vanishes on identical inputs: every per-scale factor is 1,
`1 ^ p = 1`, and the channel mean of ones is 1. -/
theorem msssim_call_self (k1 k2 maxval sigma : ℝ) (filter_size : ℕ) (x : Tensor4)
    (hfs : filter_size ≠ 0) (h16 : 16 ≤ x.h) (hwh : x.w = x.h) (hc : x.c ≠ 0)
    (hk1 : k1 * maxval ≠ 0) (hk2 : k2 * maxval ≠ 0) (i : ℕ) :
    (MSSSIMLoss.call k1 k2 filter_size sigma maxval msssimDefaultPF x x).data i = 0 := by
  have hcast : (x.c : ℝ) ≠ 0 := Nat.cast_ne_zero.mpr hc
  have hlen : msssimDefaultPF.length - 1 = 4 := by simp [msssimDefaultPF]
  have hfs_eq : MSSSIMLoss.filter_size_used filter_size x.h msssimDefaultPF.length
      = min filter_size (x.h / 16) := by
    rw [MSSSIMLoss.filter_size_used, hlen, get_smallest_size_eq]
    norm_num
  have hfz : min filter_size (x.h / 16) ≠ 0 := clamped_filter_ne_zero filter_size x.h hfs h16
  have hup : ∀ s : ℕ, s ≤ 4 → min filter_size (x.h / 16) ≤ (iterPool s x).h
      ∧ min filter_size (x.h / 16) ≤ (iterPool s x).w := by
    intro s hs
    rw [iterPool_h, iterPool_w, hwh]
    exact ⟨clamped_filter_le_scale filter_size x.h h16 s hs,
      clamped_filter_le_scale filter_size x.h h16 s hs⟩
  simp only [MSSSIMLoss.call, tfMSSSIM, hfs_eq, hlen]
  have hone : ∀ l ∈ Finset.range x.c,
      (∏ s ∈ Finset.range 4,
        Real.rpow (csPosMean k2 maxval (min filter_size (x.h / 16)) sigma
          (iterPool s x) (iterPool s x) i l) (msssimDefaultPF.getD s 0))
        * Real.rpow (ssimPosMean k1 k2 maxval (min filter_size (x.h / 16)) sigma
            (iterPool 4 x) (iterPool 4 x) i l) (msssimDefaultPF.getD 4 0) = 1 := by
    intro l _
    have hprod : (∏ s ∈ Finset.range 4,
        Real.rpow (csPosMean k2 maxval (min filter_size (x.h / 16)) sigma
          (iterPool s x) (iterPool s x) i l) (msssimDefaultPF.getD s 0)) = 1 := by
      refine Finset.prod_eq_one fun s hsmem => ?_
      have hs4 : s ≤ 4 := by
        have := Finset.mem_range.mp hsmem
        omega
      rw [csPosMean_self k2 maxval (min filter_size (x.h / 16)) sigma (iterPool s x) i l
        hfz (hup s hs4).1 (hup s hs4).2 hk2]
      exact Real.one_rpow _
    rw [hprod, ssimPosMean_self k1 k2 maxval (min filter_size (x.h / 16)) sigma
      (iterPool 4 x) i l hfz (hup 4 le_rfl).1 (hup 4 le_rfl).2 hk1 hk2, one_mul]
    exact Real.one_rpow _
  rw [Finset.sum_congr rfl hone, Finset.sum_const, Finset.card_range, nsmul_eq_mul, mul_one,
    div_self hcast]
  norm_num

/-- Claim C5: on identical inputs every metric of the module returns 0
exactly — DSSIM and MS-SSIM at their default configurations (windows that fit
the image, at least one channel; MS-SSIM additionally on square images of
height at least 16 so that every downsampled scale supports its window), the
generalized loss for every (alpha, beta), the L-inf norm, the gradient loss,
and GMSD; in particular GMSD on a uniform constant image used as both inputs
returns 0. -/
theorem all_metrics_zero_on_identical_inputs :
    (∀ x : Tensor4, 11 ≤ x.h → 11 ≤ x.w → x.c ≠ 0 → ∀ i,
        (DSSIMObjective.call 0.01 0.03 11 1.5 1.0 x x).data i = 0)
      ∧ (∀ x : Tensor4, 16 ≤ x.h → x.w = x.h → x.c ≠ 0 → ∀ i,
          (MSSSIMLoss.call 0.01 0.03 4 1.5 1.0 msssimDefaultPF x x).data i = 0)
      ∧ (∀ (gl : GeneralizedLoss) (x : Tensor4) (i j k : ℕ),
          (GeneralizedLoss.call gl x x).data i j k = 0)
      ∧ (∀ (x : Tensor4) (i j k : ℕ), (LInfNorm.call x x).data i j k = 0)
      ∧ (∀ x : Tensor4, GradientLoss.call x x = 0)
      ∧ (∀ (x : Tensor4) (i j k : ℕ), (GMSDLoss.call x x).data i j k = 0)
      ∧ (∀ (b h w c : ℕ) (v : ℝ) (i j k : ℕ),
          (GMSDLoss.call (constT b h w c v) (constT b h w c v)).data i j k = 0) :=
  ⟨fun x hh hw hc i =>
      dssim_call_self 0.01 0.03 1.0 1.5 11 x (by norm_num) hh hw hc
        (by norm_num) (by norm_num) i,
    fun x h16 hwh hc i =>
      msssim_call_self 0.01 0.03 1.0 1.5 4 x (by norm_num) h16 hwh hc
        (by norm_num) (by norm_num) i,
    fun gl x i j k => generalizedLoss_call_self gl x i j k,
    fun x i j k => linf_call_self x i j k,
    fun x => gradientLoss_call_self x,
    fun x i j k => gmsd_call_self_zero x i j k,
    fun b h w c v i j k => gmsd_call_self_zero (constT b h w c v) i j k⟩

/-- Witness for C5 on a concrete 1x16x16x1 half-grey image. -/
theorem all_metrics_zero_witness :
    ((11:ℕ) ≤ (constT 1 16 16 1 (1/2)).h ∧ (16:ℕ) ≤ (constT 1 16 16 1 (1/2)).h
        ∧ (constT 1 16 16 1 (1/2)).w = (constT 1 16 16 1 (1/2)).h
        ∧ (constT 1 16 16 1 (1/2)).c ≠ 0)
      ∧ (DSSIMObjective.call 0.01 0.03 11 1.5 1.0
          (constT 1 16 16 1 (1/2)) (constT 1 16 16 1 (1/2))).data 0 = 0
      ∧ (MSSSIMLoss.call 0.01 0.03 4 1.5 1.0 msssimDefaultPF
          (constT 1 16 16 1 (1/2)) (constT 1 16 16 1 (1/2))).data 0 = 0
      ∧ GradientLoss.call (constT 1 16 16 1 (1/2)) (constT 1 16 16 1 (1/2)) = 0
      ∧ (GMSDLoss.call (constT 1 16 16 1 (1/2)) (constT 1 16 16 1 (1/2))).data 0 0 0 = 0 :=
  ⟨⟨by decide, by decide, rfl, by decide⟩,
    all_metrics_zero_on_identical_inputs.1 (constT 1 16 16 1 (1/2))
      (by decide) (by decide) (by decide) 0,
    all_metrics_zero_on_identical_inputs.2.1 (constT 1 16 16 1 (1/2))
      (by decide) rfl (by decide) 0,
    all_metrics_zero_on_identical_inputs.2.2.2.2.1 (constT 1 16 16 1 (1/2)),
    all_metrics_zero_on_identical_inputs.2.2.2.2.2.1 (constT 1 16 16 1 (1/2)) 0 0 0⟩
